import Mathlib

/-!
Verification development for the pygameui repository (style resolution engine
in `pygameui/theme.py` and the event dispatch loop in `pygameui/__init__.py`).

Python dictionaries are embedded as `String → Option _` functions; nested
dictionaries nest the `Option`.  Python exceptions become `Except PyError _`.
Python classes (used by `Theme.get_dict_for_class` only through `__name__`
and `__bases__`) become the inductive `PyClass`.
-/

set_option autoImplicit false

namespace Pygameui

/-! ### Dictionary model -/

/-- innermost style dict: attribute key → value (`{key: value}`). -/
abbrev StyleDict (V : Type) : Type := String → Option V

/-- per-class dict: state name → style dict. -/
abbrev StateDict (V : Type) : Type := String → Option (StyleDict V)

/-- the whole `Theme._styles` table: class name → state dict. -/
abbrev Styles (V : Type) : Type := String → Option (StateDict V)

/-- an empty Python dict `{}`. -/
def emptyDict {α : Type} : String → Option α := fun _ => none

/-- Python dict assignment `d[key] = v` (functional update). -/
def dset {α : Type} (d : String → Option α) (key : String) (v : α) :
    String → Option α :=
  fun x => if x = key then some v else d x

/-- Python `d.setdefault(key, v)`: insert `v` only when `key` is absent. -/
def setdefault {α : Type} (d : String → Option α) (key : String) (v : α) :
    String → Option α :=
  match d key with
  | some _ => d
  | none => dset d key v

/-- Python `dict(chain(a.items(), b.items()))`: keys of `b` win over keys of
`a` (theme.py lines 176-180 merge dicts exactly this way). -/
def dict_chain {V : Type} (a b : StyleDict V) : StyleDict V :=
  fun k =>
    match b k with
    | some v => some v
    | none => a k

variable {V : Type}

/-! ### Python classes and errors

`Theme.get_dict_for_class` walks `klass.__bases__[0]` until `klass.__name__`
equals `base_name`.  Only the name and the (ordered) base list of a class are
consulted, so a class is embedded as a name plus the list of its bases. -/

inductive PyClass : Type where
  | mk : String → List PyClass → PyClass

/-- Python `klass.__name__`. -/
def PyClass.name : PyClass → String
  | .mk n _ => n

/-- Python `klass.__bases__`. -/
def PyClass.bases : PyClass → List PyClass
  | .mk _ b => b

/-- Exceptions the embedded code can raise.  The source raises `IndexError`
(from `klass.__bases__[0]` on an empty base list).  `configurationError` is
modelled from the spec: the spec names a distinct `ConfigurationError` for a
chain that never reaches the base class; no such exception class exists in the
source, and the constructor exists only so that statements can compare the
exception the code actually raises against the one the spec names. -/
inductive PyError : Type where
  | indexError : PyError
  | keyError : PyError
  | configurationError : PyError
  deriving DecidableEq

/-- theme.py lines 148-155: the `while True` loop collecting `classes`.
Appends the current class, stops inclusively at the first class whose
`__name__` equals `base_name`, otherwise steps to `__bases__[0]`; indexing an
empty `__bases__` raises `IndexError`. -/
def collect_class_chain : PyClass → String → Except PyError (List PyClass)
  | .mk n bs, base_name =>
    if n = base_name then
      Except.ok [PyClass.mk n bs]
    else
      match bs with
      | [] => Except.error PyError.indexError
      | p :: _ =>
        match collect_class_chain p base_name with
        | Except.ok cs => Except.ok (PyClass.mk n bs :: cs)
        | Except.error e => Except.error e

/-- Helper for recursion over the head-ancestor chain: `true` when walking
first bases from `k` reaches a class named `b` (the loop of
`collect_class_chain` terminates normally exactly in this case). -/
def chainReaches : PyClass → String → Bool
  | .mk n bs, b =>
    if n = b then true
    else
      match bs with
      | [] => false
      | p :: _ => chainReaches p b

/-! ### Theme -/

/-- theme.py lines 72-98, `Theme.set`:
`self._styles.setdefault(class_name, {}).setdefault(state, {})` followed by
`self._styles[class_name][state][key] = value`.  The setdefault-then-mutate
sequence is embedded as read-with-`{}`-default followed by writing the updated
inner dicts back. -/
def Theme.set (t : Styles V) (class_name state key : String) (value : V) :
    Styles V :=
  let stateDict := (t class_name).getD emptyDict
  let styleDict := (stateDict state).getD emptyDict
  dset t class_name (dset stateDict state (dset styleDict key value))

/-- Python `sorted(params, key=lambda x: x[0])` is a stable ascending sort by
the first tuple component; embedded as stable insertion by the state string
(an element is inserted before the first element whose state is not smaller,
hence after every equal state, which is exactly stability). -/
def pyInsert (x : String × String × V) :
    List (String × String × V) → List (String × String × V)
  | [] => [x]
  | y :: ys => if y.1 < x.1 then y :: pyInsert x ys else x :: y :: ys

/-- Python `sorted(params, key=lambda x: x[0])`. -/
def pySorted : List (String × String × V) → List (String × String × V)
  | [] => []
  | x :: xs => pyInsert x (pySorted xs)

/-- theme.py lines 100-112, `Theme.set_for_class`:
`self._styles.setdefault(class_name, {})`, then for each `(state, key, value)`
of `sorted(params, key=lambda x: x[0])`:
`self._styles[class_name].setdefault(state, {})` and
`self._styles[class_name][state][key] = value`.  The loop body indexes
`self._styles[class_name]` directly; the entry exists thanks to the initial
setdefault, so the defaulted read used here is the same value. -/
def Theme.set_for_class (t : Styles V) (class_name : String)
    (params : List (String × String × V)) : Styles V :=
  let t0 := setdefault t class_name emptyDict
  (pySorted params).foldl
    (fun acc p =>
      let stateDict := (acc class_name).getD emptyDict
      let styleDict := (stateDict p.1).getD emptyDict
      dset acc class_name (dset stateDict p.1 (dset styleDict p.2.1 p.2.2)))
    t0

/-- theme.py lines 162-177, the body of the `for klass in classes` loop up to
the per-class map: `state_styles = self._styles[class_name][state]` with
`KeyError` giving `{}`, and for a non-`"normal"` state the class's own
`"normal"` map merged underneath
(`dict(chain(normal_styles.items(), state_styles.items()))`). -/
def state_layer (t : Styles V) (state : String) (klass : PyClass) :
    StyleDict V :=
  let class_name := klass.name
  let state_styles := ((t class_name).bind (fun d => d state)).getD emptyDict
  if state ≠ "normal" then
    let normal_styles :=
      ((t class_name).bind (fun d => d "normal")).getD emptyDict
    dict_chain normal_styles state_styles
  else
    state_styles

/-- theme.py lines 132-182, `Theme.get_dict_for_class`: collect the class
chain (raising when `__bases__[0]` fails), default the state to `"normal"`,
then fold the per-class maps with
`style = dict(chain(state_styles.items(), style.items()))`, so the style
accumulated from earlier (more derived) classes wins key-by-key. -/
def Theme.get_dict_for_class (t : Styles V) (class_name : PyClass)
    (state : Option String) (base_name : String) :
    Except PyError (StyleDict V) :=
  match collect_class_chain class_name base_name with
  | Except.error e => Except.error e
  | Except.ok classes =>
    let st := state.getD "normal"
    Except.ok
      (classes.foldl (fun style klass => dict_chain (state_layer t st klass) style)
        emptyDict)

/-- A view instance, as far as theme.py consults it: its class
(`obj.__class__`) and its current state string (`obj.state`). -/
structure PyView : Type where
  cls : PyClass
  state : String

/-- theme.py lines 184-190, `Theme.get_dict`: delegates to
`get_dict_for_class` passing `obj.__class__` and `obj.state`; the method's own
`state` parameter is not forwarded. -/
def Theme.get_dict (t : Styles V) (obj : PyView) (state : Option String)
    (base_name : String) : Except PyError (StyleDict V) :=
  Theme.get_dict_for_class t obj.cls (some obj.state) base_name

/-- theme.py lines 192-201, `Theme.get_value`: `styles[attr]` with the
`KeyError` handler returning `default_value`. -/
def Theme.get_value (t : Styles V) (class_name : PyClass) (attr : String)
    (default_value : V) (state : Option String) (base_name : String) :
    Except PyError V :=
  match Theme.get_dict_for_class t class_name state base_name with
  | Except.error e => Except.error e
  | Except.ok styles => Except.ok ((styles attr).getD default_value)

/-- Method-call view of `get_dict_for_class`: the resulting `self._styles`
table paired with the returned dict.  The method body (theme.py lines
148-182) only reads `self._styles` and builds fresh dicts with `dict(...)`,
never assigning to `self._styles` or into a stored dict, so the table
component is the input table. -/
def Theme.get_dict_for_class_run (t : Styles V) (class_name : PyClass)
    (state : Option String) (base_name : String) :
    Styles V × Except PyError (StyleDict V) :=
  (t, Theme.get_dict_for_class t class_name state base_name)

/-- Direct lookup of `self._styles[class_name][state][key]` as an `Option`,
used to phrase hypotheses about what a theme defines. -/
def slookup (t : Styles V) (class_name state key : String) : Option V :=
  ((t class_name).bind (fun d => d state)).bind (fun d => d key)

/-! ### Event dispatch (`pygameui/__init__.py`, `run`)

The dispatcher is embedded per event: each `MOUSEBUTTONDOWN` /
`MOUSEBUTTONUP` branch of the loop becomes a function from the dispatcher
state (the `down_in_view` local and the focus reference) to the new state plus
the ordered list of view callbacks it performs. -/

/-- a window coordinate. -/
abbrev Point : Type := Int × Int

/-- A view reference as the dispatcher distinguishes them: an identity (Python
object identity / `!=`) and whether `isinstance(view, Scene)` holds. -/
structure ViewRef : Type where
  vid : Nat
  isScene : Bool
  deriving DecidableEq

/-- Callbacks and notifications performed on views, in order. -/
inductive Action : Type where
  | blurred : ViewRef → Action
  | focusGained : ViewRef → Action
  | mouseDown : ViewRef → Nat → Point → Action
  | mouseUp : ViewRef → Nat → Point → Action
  | stylize : ViewRef → Action
  deriving DecidableEq

/-- The collaborators the loop body calls: `view.current.hit(mousepoint)` and
`some_view.from_window(mousepoint)`. -/
structure Env : Type where
  hit : Point → Option ViewRef
  fromWindow : ViewRef → Point → Point

/-- Dispatcher state across events: the `down_in_view` local of `run` and the
focus module's single view reference. -/
structure DState : Type where
  down_in_view : Option ViewRef
  focus : Option ViewRef
  deriving DecidableEq

/-- Modelled from the spec: `focus.set` of the focus module, which is not
under src/ (the dispatcher only calls it).  Spec section 4.2: setting the
already-focused view (or none while none is focused) is a no-op; otherwise the
previously focused view, if any, is sent a blur notification before the new
reference is installed, then the new view, if any, is sent a focus
notification. -/
def focus_set (cur new : Option ViewRef) : Option ViewRef × List Action :=
  if cur = new then
    (cur, [])
  else
    (new,
      (match cur with
        | some old => [Action.blurred old]
        | none => []) ++
      (match new with
        | some v => [Action.focusGained v]
        | none => []))

/-- init.py lines 136-145, the `MOUSEBUTTONDOWN` branch: hit-test the current
root; when the hit exists and is not a `Scene`, set focus to it, record it in
`down_in_view` and deliver `mouse_down(e.button, hit.from_window(mousepoint))`;
otherwise `focus.set(None)` (leaving `down_in_view` untouched). -/
def handle_mousebuttondown (env : Env) (st : DState) (button : Nat)
    (mousepoint : Point) : DState × List Action :=
  match env.hit mousepoint with
  | some hit_view =>
    if hit_view.isScene = false then
      let fs := focus_set st.focus (some hit_view)
      let pt := env.fromWindow hit_view mousepoint
      (⟨some hit_view, fs.1⟩, fs.2 ++ [Action.mouseDown hit_view button pt])
    else
      let fs := focus_set st.focus none
      (⟨st.down_in_view, fs.1⟩, fs.2)
  | none =>
    let fs := focus_set st.focus none
    (⟨st.down_in_view, fs.1⟩, fs.2)

/-- init.py lines 146-154, the `MOUSEBUTTONUP` branch: hit-test the current
root; when a view is hit, first (when `down_in_view` is set and differs from
the hit) call `down_in_view.blurred()` and `focus.set(None)`, then deliver
`mouse_up(e.button, hit.from_window(mousepoint))` to the hit view; in every
case `down_in_view = None` afterwards. -/
def handle_mousebuttonup (env : Env) (st : DState) (button : Nat)
    (mousepoint : Point) : DState × List Action :=
  match env.hit mousepoint with
  | some hit_view =>
    let step1 :=
      match st.down_in_view with
      | some dv =>
        if hit_view ≠ dv then
          let fs := focus_set st.focus none
          (fs.1, Action.blurred dv :: fs.2)
        else
          (st.focus, ([] : List Action))
      | none => (st.focus, ([] : List Action))
    let pt := env.fromWindow hit_view mousepoint
    (⟨none, step1.1⟩, step1.2 ++ [Action.mouseUp hit_view button pt])
  | none => (⟨none, st.focus⟩, [])

/-! ### Theme activation (`use_theme`) and the module-level bindings

theme.py line 5 reads `from .view import current as current_view`: this binds
`theme.current_view` to the value `view.current` has when theme.py is first
imported, and later rebindings of `view.current` do not change it. -/

/-- Module-level mutable bindings relevant to `use_theme`: the view module's
`current` root, theme.py's `current_view` binding, and theme.py's `current`
theme. -/
structure ModuleState (V : Type) : Type where
  view_current : Option ViewRef
  theme_current_view : Option ViewRef
  theme_current : Option (Styles V)

/-- Modelled from the spec: the view module (not under src/) keeps a
module-global `current` root which pushing a scene rebinds to the new
top-of-stack root (spec sections 2 and 9: the global mutable current view
stack root). -/
def view_push (w : ModuleState V) (r : ViewRef) : ModuleState V :=
  { w with view_current := some r }

/-- theme.py module initialization: line 5 snapshots `view.current` into the
module binding `current_view`, and line 204 sets `current = None`. -/
def theme_module_import (w : ModuleState V) : ModuleState V :=
  { w with theme_current_view := w.view_current, theme_current := none }

/-- The bindings right after importing the package: `view.current` is `None`
when view.py initializes, and theme.py is imported immediately after (its
line 5 snapshot therefore captures `None`). -/
def world_after_import (V : Type) : ModuleState V :=
  theme_module_import ⟨none, none, none⟩

/-- theme.py lines 209-217, `use_theme`: assign the global `current` and, when
the module binding `current_view` (the import-time snapshot) is not `None`,
call `current_view.stylize()`. -/
def use_theme (w : ModuleState V) (t : Styles V) : ModuleState V × List Action :=
  ({ w with theme_current := some t },
    match w.theme_current_view with
    | some rv => [Action.stylize rv]
    | none => [])

/-! ### Lemmas about style resolution -/

/-- First hit along the chain: the value the accumulated fold of
`get_dict_for_class` assigns to key `k`, earliest class winning. -/
def chain_lookup (t : Styles V) (st : String) : List PyClass → String → Option V
  | [], _ => none
  | c :: cs, k =>
    match state_layer t st c k with
    | some v => some v
    | none => chain_lookup t st cs k

theorem getD_emptyDict_apply {α : Type} (o : Option (String → Option α))
    (k : String) : (o.getD emptyDict) k = o.bind (fun d => d k) := by
  cases o <;> rfl

theorem foldl_dict_chain_apply (t : Styles V) (st : String) (cs : List PyClass)
    (acc : StyleDict V) (k : String) :
    (cs.foldl (fun style klass => dict_chain (state_layer t st klass) style) acc) k =
      match acc k with
      | some v => some v
      | none => chain_lookup t st cs k := by
  induction cs generalizing acc with
  | nil =>
    cases h : acc k <;> simp [chain_lookup, h]
  | cons c cs ih =>
    rw [List.foldl_cons, ih]
    cases h : acc k with
    | some v => simp [dict_chain, h]
    | none =>
      simp [dict_chain, h, chain_lookup]

theorem state_layer_apply (t : Styles V) (st : String) (c : PyClass)
    (k : String) :
    state_layer t st c k =
      if st ≠ "normal" then
        match slookup t c.name st k with
        | some v => some v
        | none => slookup t c.name "normal" k
      else slookup t c.name st k := by
  unfold state_layer
  by_cases h : st = "normal"
  · simp [h, slookup, getD_emptyDict_apply]
  · simp only [h, ne_eq, not_false_iff, if_true, if_pos]
    simp [dict_chain, slookup, getD_emptyDict_apply]

theorem state_layer_of_slookup_some (t : Styles V) (st : String) (c : PyClass)
    (k : String) (v : V) (h : slookup t c.name st k = some v) :
    state_layer t st c k = some v := by
  rw [state_layer_apply]
  split <;> simp [h]

theorem state_layer_of_slookup_none (t : Styles V) (st : String) (c : PyClass)
    (k : String) (h1 : slookup t c.name st k = none)
    (h2 : slookup t c.name "normal" k = none) :
    state_layer t st c k = none := by
  rw [state_layer_apply]
  split <;> simp [h1, h2]

theorem chain_lookup_none (t : Styles V) (st : String) (cs : List PyClass)
    (k : String) (h : ∀ c ∈ cs, state_layer t st c k = none) :
    chain_lookup t st cs k = none := by
  induction cs with
  | nil => rfl
  | cons c cs ih =>
    unfold chain_lookup
    rw [h c (List.mem_cons_self c cs)]
    exact ih (fun d hd => h d (List.mem_cons_of_mem c hd))

theorem collect_class_chain_base (n : String) (bs : List PyClass) (b : String)
    (h : n = b) :
    collect_class_chain (PyClass.mk n bs) b = Except.ok [PyClass.mk n bs] := by
  unfold collect_class_chain
  rw [if_pos h]

theorem collect_class_chain_nil (n b : String) (h : ¬n = b) :
    collect_class_chain (PyClass.mk n []) b = Except.error PyError.indexError := by
  unfold collect_class_chain
  rw [if_neg h]

theorem collect_class_chain_cons (n : String) (p : PyClass)
    (rest : List PyClass) (b : String) (h : ¬n = b) :
    collect_class_chain (PyClass.mk n (p :: rest)) b =
      match collect_class_chain p b with
      | Except.ok cs => Except.ok (PyClass.mk n (p :: rest) :: cs)
      | Except.error e => Except.error e := by
  rw [show collect_class_chain (PyClass.mk n (p :: rest)) b =
      if n = b then Except.ok [PyClass.mk n (p :: rest)]
      else
        match collect_class_chain p b with
        | Except.ok cs => Except.ok (PyClass.mk n (p :: rest) :: cs)
        | Except.error e => Except.error e from rfl, if_neg h]

theorem chainReaches_base (n : String) (bs : List PyClass) (b : String)
    (h : n = b) : chainReaches (PyClass.mk n bs) b = true := by
  unfold chainReaches
  rw [if_pos h]

theorem chainReaches_nil (n b : String) (h : ¬n = b) :
    chainReaches (PyClass.mk n []) b = false := by
  unfold chainReaches
  rw [if_neg h]

theorem chainReaches_cons (n : String) (p : PyClass) (rest : List PyClass)
    (b : String) (h : ¬n = b) :
    chainReaches (PyClass.mk n (p :: rest)) b = chainReaches p b := by
  rw [show chainReaches (PyClass.mk n (p :: rest)) b =
      if n = b then true else chainReaches p b from rfl, if_neg h]

theorem collect_class_chain_head (k : PyClass) (b : String) (cs : List PyClass)
    (h : collect_class_chain k b = Except.ok cs) : ∃ rest, cs = k :: rest := by
  match k with
  | .mk n bs =>
    by_cases hn : n = b
    · rw [collect_class_chain_base n bs b hn] at h
      exact ⟨[], (Except.ok.inj h).symm⟩
    · match bs with
      | [] =>
        rw [collect_class_chain_nil n b hn] at h
        exact absurd h (by simp)
      | p :: rest =>
        rw [collect_class_chain_cons n p rest b hn] at h
        cases hc : collect_class_chain p b with
        | ok cs0 =>
          rw [hc] at h
          exact ⟨cs0, (Except.ok.inj h).symm⟩
        | error e =>
          rw [hc] at h
          exact absurd h (by simp)

theorem collect_class_chain_of_not_reaches :
    ∀ (k : PyClass) (b : String), chainReaches k b = false →
      collect_class_chain k b = Except.error PyError.indexError
  | .mk n [], b, h => by
    by_cases hn : n = b
    · rw [chainReaches_base n [] b hn] at h
      exact absurd h (by simp)
    · exact collect_class_chain_nil n b hn
  | .mk n (p :: rest), b, h => by
    by_cases hn : n = b
    · rw [chainReaches_base n (p :: rest) b hn] at h
      exact absurd h (by simp)
    · rw [chainReaches_cons n p rest b hn] at h
      rw [collect_class_chain_cons n p rest b hn,
        collect_class_chain_of_not_reaches p b h]

theorem get_dict_for_class_ok (t : Styles V) (C : PyClass) (s : Option String)
    (b : String) (cs : List PyClass)
    (hc : collect_class_chain C b = Except.ok cs) :
    ∃ m, Theme.get_dict_for_class t C s b = Except.ok m ∧
      ∀ k, m k = chain_lookup t (s.getD "normal") cs k := by
  have hm : Theme.get_dict_for_class t C s b =
      Except.ok
        (cs.foldl
          (fun style klass => dict_chain (state_layer t (s.getD "normal") klass) style)
          emptyDict) := by
    unfold Theme.get_dict_for_class
    rw [hc]
  refine ⟨_, hm, fun k => ?_⟩
  rw [foldl_dict_chain_apply]
  rfl

theorem collect_three_ok (leaf mid base : PyClass) (b : String)
    (hleaf : leaf.bases = [mid]) (hmid : mid.bases = [base])
    (hbase : base.name = b) :
    ∃ cs rest, collect_class_chain leaf b = Except.ok cs ∧ cs = leaf :: rest := by
  obtain ⟨ln, lbs⟩ := leaf
  obtain ⟨mn, mbs⟩ := mid
  obtain ⟨bn, bbs⟩ := base
  simp only [PyClass.bases, PyClass.name] at hleaf hmid hbase
  subst hleaf
  subst hmid
  by_cases h1 : ln = b
  · exact ⟨_, _, collect_class_chain_base ln _ b h1, rfl⟩
  · rw [collect_class_chain_cons ln (PyClass.mk mn _) [] b h1]
    by_cases h2 : mn = b
    · rw [collect_class_chain_base mn _ b h2]
      exact ⟨_, _, rfl, rfl⟩
    · rw [collect_class_chain_cons mn (PyClass.mk bn bbs) [] b h2,
        collect_class_chain_base bn bbs b hbase]
      exact ⟨_, _, rfl, rfl⟩

/-! ### Claim theorems: style resolution -/

/-- C1: for every class chain `Base < Mid < Leaf` reaching the base class,
every state, and every attribute key defined for that state on both `Base`
and `Leaf`, the map returned by `Theme.get_dict_for_class(Leaf, state)` maps
the key to the `Leaf` value: the most derived class's entry wins key-by-key
over any ancestor's entry. -/
theorem C1_leaf_precedence (t : Styles V) (s k b : String) (vL vB : V)
    (leaf mid base : PyClass)
    (hleaf : leaf.bases = [mid]) (hmid : mid.bases = [base])
    (hbase : base.name = b)
    (hL : slookup t leaf.name s k = some vL)
    (hB : slookup t base.name s k = some vB) :
    ∃ m, Theme.get_dict_for_class t leaf (some s) b = Except.ok m ∧
      m k = some vL := by
  obtain ⟨cs, rest, hc, hcs⟩ := collect_three_ok leaf mid base b hleaf hmid hbase
  obtain ⟨m, hm, hmk⟩ := get_dict_for_class_ok t leaf (some s) b cs hc
  refine ⟨m, hm, ?_⟩
  rw [hmk k, hcs]
  simp only [Option.getD_some, chain_lookup]
  rw [state_layer_of_slookup_some t s leaf k vL hL]

def view_base : PyClass := PyClass.mk "View" []

def mid_ex : PyClass := PyClass.mk "Mid" [view_base]

def leaf_ex : PyClass := PyClass.mk "Leaf" [mid_ex]

def theme_ex : Styles Nat :=
  Theme.set (Theme.set (fun _ => none) "View" "focused" "background_color" 1)
    "Leaf" "focused" "background_color" 2

theorem C1_witness :
    ∃ m,
      Theme.get_dict_for_class theme_ex leaf_ex (some "focused") "View" =
        Except.ok m ∧
      m "background_color" = some 2 :=
  C1_leaf_precedence theme_ex "focused" "background_color" "View" 2 1
    leaf_ex mid_ex view_base rfl rfl rfl (by decide) (by decide)

/-- C2: for a class `C` whose chain resolves, a key defined only under
`"normal"` for `C` resolves under state `"focused"` to the `"normal"` value,
and a key defined under both resolves to the `"focused"` value: the class's
normal map is a lower-precedence underlay beneath its state-specific map. -/
theorem C2_normal_state_underlay (t : Styles V) (b k : String) (C : PyClass)
    (v w : V) (m : StyleDict V)
    (h : Theme.get_dict_for_class t C (some "focused") b = Except.ok m) :
    (slookup t C.name "focused" k = none →
      slookup t C.name "normal" k = some v → m k = some v) ∧
    (slookup t C.name "normal" k = some v →
      slookup t C.name "focused" k = some w → m k = some w) := by
  have hex : ∃ cs, collect_class_chain C b = Except.ok cs := by
    unfold Theme.get_dict_for_class at h
    cases hcc : collect_class_chain C b with
    | ok cs => exact ⟨cs, rfl⟩
    | error e =>
      rw [hcc] at h
      exact absurd h (by simp)
  obtain ⟨cs, hcc⟩ := hex
  obtain ⟨rest, hcs⟩ := collect_class_chain_head C b cs hcc
  obtain ⟨m2, hm2, hm2k⟩ := get_dict_for_class_ok t C (some "focused") b cs hcc
  have hmm : m2 = m := by
    rw [hm2] at h
    exact Except.ok.inj h
  subst hmm
  have hne : ("focused" : String) ≠ "normal" := by decide
  constructor
  · intro h1 h2
    rw [hm2k k, hcs]
    simp only [Option.getD_some, chain_lookup]
    have hlay : state_layer t "focused" C k = some v := by
      rw [state_layer_apply, if_pos hne, h1]
      exact h2
    rw [hlay]
  · intro h1 h2
    rw [hm2k k, hcs]
    simp only [Option.getD_some, chain_lookup]
    rw [state_layer_of_slookup_some t "focused" C k w h2]

def button_ex : PyClass := PyClass.mk "Button" [view_base]

def theme_ex2 : Styles Nat :=
  Theme.set
    (Theme.set (Theme.set (fun _ => none) "Button" "normal" "border_widths" 3)
      "Button" "normal" "text_color" 7)
    "Button" "focused" "text_color" 9

theorem C2_witness :
    (∃ m,
      Theme.get_dict_for_class theme_ex2 button_ex (some "focused") "View" =
        Except.ok m ∧
      m "border_widths" = some 3) ∧
    (∃ m,
      Theme.get_dict_for_class theme_ex2 button_ex (some "focused") "View" =
        Except.ok m ∧
      m "text_color" = some 9) := by
  have hcol : collect_class_chain button_ex "View" =
      Except.ok [button_ex, view_base] := rfl
  obtain ⟨mw, hmw, -⟩ :=
    get_dict_for_class_ok theme_ex2 button_ex (some "focused") "View" _ hcol
  constructor
  · exact ⟨mw,
      hmw,
      (C2_normal_state_underlay theme_ex2 "View" "border_widths" button_ex 3 3 mw
          hmw).1 (by decide) (by decide)⟩
  · exact ⟨mw,
      hmw,
      (C2_normal_state_underlay theme_ex2 "View" "text_color" button_ex 7 9 mw
          hmw).2 (by decide) (by decide)⟩

/-- C5 counterexample: the chain of class `C` (whose only base is `object`)
never reaches `"View"`; `get_dict_for_class` fails with `IndexError` from
`klass.__bases__[0]`, which is not the distinct `ConfigurationError` that the
claim names (no such exception exists in the code). -/
theorem C5_counterexample :
    Theme.get_dict_for_class (V := Nat) (fun _ => none)
        (PyClass.mk "C" [PyClass.mk "object" []]) none "View" =
      Except.error PyError.indexError ∧
    (Except.error PyError.indexError : Except PyError (StyleDict Nat)) ≠
      Except.error PyError.configurationError := by
  refine ⟨rfl, ?_⟩
  intro h
  exact PyError.noConfusion (Except.error.inj h)

/-- C5 amended: for every view class whose single-parent ancestor chain never
reaches a class named `base_name`, `Theme.get_dict_for_class` fails with an
`IndexError` (raised by `klass.__bases__[0]` when the chain runs out of
bases), not with a distinct `ConfigurationError`. -/
theorem C5_amended_index_error (t : Styles V) (C : PyClass) (s : Option String)
    (b : String) (h : chainReaches C b = false) :
    Theme.get_dict_for_class t C s b = Except.error PyError.indexError := by
  unfold Theme.get_dict_for_class
  rw [collect_class_chain_of_not_reaches C b h]

theorem C5_amended_witness :
    chainReaches (PyClass.mk "C" [PyClass.mk "object" []]) "View" = false ∧
    Theme.get_dict_for_class (V := Nat) (fun _ => none)
        (PyClass.mk "C" [PyClass.mk "object" []]) none "View" =
      Except.error PyError.indexError :=
  ⟨by decide,
    C5_amended_index_error (fun _ => none)
      (PyClass.mk "C" [PyClass.mk "object" []]) none "View" (by decide)⟩

/-- C7: style resolution is pure: a `get_dict_for_class` call leaves the
style table unchanged, and a second call with identical arguments on the
resulting table returns the same map. -/
theorem C7_resolution_pure (t : Styles V) (C : PyClass) (s : Option String)
    (b : String) :
    (Theme.get_dict_for_class_run t C s b).1 = t ∧
    (Theme.get_dict_for_class_run t C s b).2 =
      (Theme.get_dict_for_class_run (Theme.get_dict_for_class_run t C s b).1
        C s b).2 :=
  ⟨rfl, rfl⟩

/-- C8: when a key is defined in no class along the chain, neither for the
queried state nor for `"normal"`, the resolved map has no entry for it and
`Theme.get_value` returns the caller-supplied default instead of raising. -/
theorem C8_absent_key_default (t : Styles V) (C : PyClass) (b s k : String)
    (dflt : V) (cs : List PyClass)
    (hc : collect_class_chain C b = Except.ok cs)
    (habs : ∀ c ∈ cs,
      slookup t c.name s k = none ∧ slookup t c.name "normal" k = none) :
    (∃ m, Theme.get_dict_for_class t C (some s) b = Except.ok m ∧ m k = none) ∧
    Theme.get_value t C k dflt (some s) b = Except.ok dflt := by
  obtain ⟨m, hm, hmk⟩ := get_dict_for_class_ok t C (some s) b cs hc
  have hnone : m k = none := by
    rw [hmk k]
    simp only [Option.getD_some]
    exact chain_lookup_none t s cs k (fun c hcm =>
      state_layer_of_slookup_none t s c k (habs c hcm).1 (habs c hcm).2)
  refine ⟨⟨m, hm, hnone⟩, ?_⟩
  unfold Theme.get_value
  rw [hm]
  simp [hnone]

theorem C8_witness :
    (∃ m,
      Theme.get_dict_for_class theme_ex2 button_ex (some "focused") "View" =
        Except.ok m ∧
      m "missing_key" = none) ∧
    Theme.get_value theme_ex2 button_ex "missing_key" 42 (some "focused")
        "View" =
      Except.ok 42 := by
  refine C8_absent_key_default theme_ex2 button_ex "View" "focused"
    "missing_key" 42 [button_ex, view_base] ?_ ?_
  · rfl
  · intro c hcm
    rcases List.mem_cons.mp hcm with h | h
    · subst h
      exact ⟨by decide, by decide⟩
    · rw [List.mem_singleton.mp h]
      exact ⟨by decide, by decide⟩

/-- C10: `Theme.get_dict` ignores its `state` parameter: any two state
arguments give the same result, which is always the `get_dict_for_class`
resolution at `obj.state`. -/
theorem C10_get_dict_ignores_state (t : Styles V) (obj : PyView)
    (s1 s2 : Option String) (b : String) :
    Theme.get_dict t obj s1 b = Theme.get_dict t obj s2 b ∧
    Theme.get_dict t obj s1 b =
      Theme.get_dict_for_class t obj.cls (some obj.state) b :=
  ⟨rfl, rfl⟩

/-! ### Lemmas about the dispatcher -/

theorem focus_set_fst (cur new : Option ViewRef) : (focus_set cur new).1 = new := by
  unfold focus_set
  split
  · assumption
  · rfl

theorem focus_set_no_mouse_down (cur new : Option ViewRef) (v : ViewRef)
    (b : Nat) (pt : Point) : Action.mouseDown v b pt ∉ (focus_set cur new).2 := by
  unfold focus_set
  split
  · simp
  · cases cur <;> cases new <;> simp

/-! ### Claim theorems: dispatcher and theme activation -/

/-- C4: on pointer-down, a hit view that is not a Scene becomes the focused
view and the pressed view and receives `mouse_down` at its local coordinates;
with no hit, or a bare-scene hit, focus is cleared and no press is
delivered. -/
theorem C4_mousedown_dispatch (env : Env) (st : DState) (button : Nat)
    (P : Point) :
    (∀ hv, env.hit P = some hv → hv.isScene = false →
      (handle_mousebuttondown env st button P).1.focus = some hv ∧
      (handle_mousebuttondown env st button P).1.down_in_view = some hv ∧
      Action.mouseDown hv button (env.fromWindow hv P) ∈
        (handle_mousebuttondown env st button P).2) ∧
    ((env.hit P = none ∨ ∃ hv, env.hit P = some hv ∧ hv.isScene = true) →
      (handle_mousebuttondown env st button P).1.focus = none ∧
      ∀ v b2 pt,
        Action.mouseDown v b2 pt ∉ (handle_mousebuttondown env st button P).2) := by
  constructor
  · intro hv hhit hscene
    simp only [handle_mousebuttondown, hhit, hscene]
    refine ⟨focus_set_fst st.focus (some hv), rfl, ?_⟩
    simp
  · intro hmiss
    rcases hmiss with hnone | ⟨hv, hhit, hscene⟩
    · simp only [handle_mousebuttondown, hnone]
      exact ⟨focus_set_fst st.focus none,
        fun v b2 pt => focus_set_no_mouse_down st.focus none v b2 pt⟩
    · simp only [handle_mousebuttondown, hhit, hscene]
      exact ⟨focus_set_fst st.focus none,
        fun v b2 pt => focus_set_no_mouse_down st.focus none v b2 pt⟩

def buttonA : ViewRef := ⟨1, false⟩

def env_hitA : Env := ⟨fun _ => some buttonA, fun _ p => p⟩

def env_miss : Env := ⟨fun _ => none, fun _ p => p⟩

def dstate0 : DState := ⟨none, none⟩

theorem C4_witness :
    ((handle_mousebuttondown env_hitA dstate0 1 (10, 10)).1.focus =
        some buttonA ∧
      (handle_mousebuttondown env_hitA dstate0 1 (10, 10)).1.down_in_view =
        some buttonA ∧
      Action.mouseDown buttonA 1 (10, 10) ∈
        (handle_mousebuttondown env_hitA dstate0 1 (10, 10)).2) ∧
    ((handle_mousebuttondown env_miss dstate0 1 (10, 10)).1.focus = none ∧
      ∀ v b2 pt,
        Action.mouseDown v b2 pt ∉
          (handle_mousebuttondown env_miss dstate0 1 (10, 10)).2) :=
  ⟨(C4_mousedown_dispatch env_hitA dstate0 1 (10, 10)).1 buttonA rfl rfl,
    (C4_mousedown_dispatch env_miss dstate0 1 (10, 10)).2 (Or.inl rfl)⟩

def viewA : ViewRef := ⟨1, false⟩

def viewB : ViewRef := ⟨2, false⟩

def envAB : Env := ⟨fun _ => some viewB, fun _ p => p⟩

/-- C3 counterexample: with view A pressed and focused, a release hitting
view B delivers TWO blur notifications to A — one direct `blurred()` call
from the dispatcher and a second from `focus.set(None)` blurring the still
focused A — so A does not receive exactly one blur notification. -/
theorem C3_counterexample :
    (handle_mousebuttonup envAB ⟨some viewA, some viewA⟩ 1 (0, 0)).2 =
      [Action.blurred viewA, Action.blurred viewA,
        Action.mouseUp viewB 1 (0, 0)] ∧
    ¬ List.count (Action.blurred viewA)
        (handle_mousebuttonup envAB ⟨some viewA, some viewA⟩ 1 (0, 0)).2 = 1 := by
  decide

/-- C3 amended: when a pointer-up occurs while view A holds the active press
and is the focused view, and the hit-test yields B ≠ A, then A receives
exactly two blur notifications (one direct from the dispatcher, one more from
the focus manager while clearing focus), focus is cleared, the release is
delivered to B at B's local coordinates and never to A, and the pressed-view
record is cleared whether or not any view was hit. -/
theorem C3_release_over_other_view (env : Env) (st : DState) (button : Nat)
    (P : Point) (A B : ViewRef)
    (hdown : st.down_in_view = some A) (hfocus : st.focus = some A)
    (hhit : env.hit P = some B) (hne : B ≠ A) :
    (handle_mousebuttonup env st button P).2 =
      [Action.blurred A, Action.blurred A,
        Action.mouseUp B button (env.fromWindow B P)] ∧
    (handle_mousebuttonup env st button P).1.focus = none ∧
    (handle_mousebuttonup env st button P).1.down_in_view = none ∧
    (∀ b2 pt, Action.mouseUp A b2 pt ∉ (handle_mousebuttonup env st button P).2) ∧
    (∀ Q, (handle_mousebuttonup env st button Q).1.down_in_view = none) := by
  have hfs : focus_set st.focus none = (none, [Action.blurred A]) := by
    rw [hfocus]
    rfl
  have hacts : (handle_mousebuttonup env st button P).2 =
      [Action.blurred A, Action.blurred A,
        Action.mouseUp B button (env.fromWindow B P)] := by
    simp only [handle_mousebuttonup, hhit, hdown]
    rw [if_pos hne, hfs]
    rfl
  refine ⟨hacts, ?_, ?_, ?_, ?_⟩
  · simp only [handle_mousebuttonup, hhit, hdown]
    rw [if_pos hne, hfs]
  · simp only [handle_mousebuttonup, hhit]
  · intro b2 pt
    rw [hacts]
    simp only [List.mem_cons]
    intro hmem
    rcases hmem with h | h | h | h
    · exact Action.noConfusion h
    · exact Action.noConfusion h
    · exact absurd (Action.mouseUp.inj h).1 (Ne.symm hne)
    · exact absurd h (List.not_mem_nil _)
  · intro Q
    unfold handle_mousebuttonup
    cases env.hit Q <;> rfl

theorem C3_amended_witness :
    (handle_mousebuttonup envAB ⟨some viewA, some viewA⟩ 2 (3, 4)).2 =
      [Action.blurred viewA, Action.blurred viewA,
        Action.mouseUp viewB 2 (3, 4)] ∧
    (handle_mousebuttonup envAB ⟨some viewA, some viewA⟩ 2 (3, 4)).1.focus =
      none ∧
    (handle_mousebuttonup envAB
        ⟨some viewA, some viewA⟩ 2 (3, 4)).1.down_in_view = none ∧
    (∀ b2 pt,
      Action.mouseUp viewA b2 pt ∉
        (handle_mousebuttonup envAB ⟨some viewA, some viewA⟩ 2 (3, 4)).2) ∧
    (∀ Q,
      (handle_mousebuttonup envAB ⟨some viewA, some viewA⟩ 2 Q).1.down_in_view =
        none) :=
  C3_release_over_other_view envAB ⟨some viewA, some viewA⟩ 2 (3, 4) viewA viewB
    rfl rfl rfl (by decide)

/-- C6 code-bug exhibit: after importing the package (theme.py line 5
snapshots `view.current`, which is `None` at that moment) a scene root is
pushed, so a view tree root is active; `use_theme` then installs the theme
but performs no stylize call, because it consults the stale import-time
`current_view` binding instead of the live `view.current`. -/
theorem C6_code_bug_exhibit :
    (view_push (world_after_import Nat) ⟨0, true⟩).view_current =
      some ⟨0, true⟩ ∧
    (use_theme (view_push (world_after_import Nat) ⟨0, true⟩)
        (fun _ => none)).1.theme_current = some (fun _ => none) ∧
    (use_theme (view_push (world_after_import Nat) ⟨0, true⟩)
        (fun _ => none)).2 = [] :=
  ⟨rfl, rfl, rfl⟩

/-! ### Lemmas for `set_for_class` versus repeated `set` -/

/-- One write step of the `set_for_class` loop, which coincides with a
`Theme.set` call on the same class. -/
def writeCell (c : String) (acc : Styles V) (p : String × String × V) :
    Styles V :=
  Theme.set acc c p.1 p.2.1 p.2.2

/-- The effect of one write on the state dict stored under the class. -/
def writeSD (sd : StateDict V) (p : String × String × V) : StateDict V :=
  dset sd p.1 (dset ((sd p.1).getD emptyDict) p.2.1 p.2.2)

/-- The effect of one write on the optional style dict of one state cell. -/
def writeKV (o : Option (StyleDict V)) (p : String × String × V) :
    Option (StyleDict V) :=
  some (dset (o.getD emptyDict) p.2.1 p.2.2)

theorem dset_dset_same {α : Type} (d : String → Option α) (c : String)
    (v1 v2 : α) : dset (dset d c v1) c v2 = dset d c v2 := by
  funext x
  by_cases h : x = c <;> simp [dset, h]

theorem dset_get_same {α : Type} (d : String → Option α) (c : String)
    (v : α) : (dset d c v) c = some v := by
  simp [dset]

theorem writeCell_dset (c : String) (t : Styles V) (sd : StateDict V)
    (p : String × String × V) :
    writeCell c (dset t c sd) p = dset t c (writeSD sd p) := by
  unfold writeCell Theme.set writeSD
  rw [dset_get_same, dset_dset_same]
  rfl

theorem foldl_writeCell_dset (c : String) (ps : List (String × String × V)) :
    ∀ (t : Styles V) (sd : StateDict V),
      List.foldl (writeCell c) (dset t c sd) ps =
        dset t c (List.foldl writeSD sd ps) := by
  induction ps with
  | nil => intro t sd; rfl
  | cons p ps ih =>
    intro t sd
    rw [List.foldl_cons, writeCell_dset, ih, List.foldl_cons]

theorem dset_setdefault (t : Styles V) (c : String) (X : StateDict V) :
    dset (setdefault t c emptyDict) c X = dset t c X := by
  unfold setdefault
  cases h : t c with
  | some sd => rfl
  | none => exact dset_dset_same t c emptyDict X

theorem setdefault_get (t : Styles V) (c : String) :
    ((setdefault t c emptyDict) c).getD emptyDict = (t c).getD emptyDict := by
  unfold setdefault
  cases h : t c with
  | some sd =>
    show (t c).getD emptyDict = (some sd).getD emptyDict
    rw [h]
  | none =>
    show ((dset t c emptyDict) c).getD emptyDict =
      (none : Option (StateDict V)).getD emptyDict
    rw [dset_get_same]
    rfl

theorem writeCell_setdefault_first (c : String) (t : Styles V)
    (p : String × String × V) :
    writeCell c (setdefault t c emptyDict) p =
      dset t c (writeSD ((t c).getD emptyDict) p) := by
  unfold writeCell Theme.set writeSD
  rw [setdefault_get, dset_setdefault]

theorem writeSD_apply_eq (sd : StateDict V) (p : String × String × V)
    (s : String) (h : p.1 = s) :
    writeSD sd p s = some (dset ((sd s).getD emptyDict) p.2.1 p.2.2) := by
  subst h
  simp [writeSD, dset]

theorem writeSD_apply_ne (sd : StateDict V) (p : String × String × V)
    (s : String) (h : ¬p.1 = s) : writeSD sd p s = sd s := by
  simp only [writeSD, dset]
  rw [if_neg (fun h2 => h h2.symm)]

theorem foldl_writeSD_apply (ps : List (String × String × V)) :
    ∀ (sd : StateDict V) (s : String),
      (List.foldl writeSD sd ps) s =
        List.foldl writeKV (sd s) (ps.filter (fun p => p.1 = s)) := by
  induction ps with
  | nil => intro sd s; rfl
  | cons p ps ih =>
    intro sd s
    rw [List.foldl_cons, ih]
    by_cases hp : p.1 = s
    · rw [writeSD_apply_eq sd p s hp]
      simp [List.filter_cons, hp]
      rfl
    · rw [writeSD_apply_ne sd p s hp]
      simp [List.filter_cons, hp]

theorem filter_pyInsert (s : String) (x : String × String × V)
    (l : List (String × String × V)) :
    (pyInsert x l).filter (fun p => p.1 = s) =
      if x.1 = s then x :: l.filter (fun p => p.1 = s)
      else l.filter (fun p => p.1 = s) := by
  induction l with
  | nil =>
    simp only [pyInsert]
    by_cases hx : x.1 = s <;> simp [List.filter_cons, hx]
  | cons y ys ih =>
    simp only [pyInsert]
    by_cases hlt : y.1 < x.1
    · rw [if_pos hlt]
      by_cases hy : y.1 = s
      · by_cases hx : x.1 = s
        · rw [hx, hy] at hlt
          exact absurd hlt (lt_irrefl s)
        · simp [List.filter_cons, hy, hx, ih]
      · simp [List.filter_cons, hy, ih]
    · rw [if_neg hlt]
      by_cases hx : x.1 = s <;> simp [List.filter_cons, hx]

theorem filter_pySorted (s : String) (ps : List (String × String × V)) :
    (pySorted ps).filter (fun p => p.1 = s) = ps.filter (fun p => p.1 = s) := by
  induction ps with
  | nil => rfl
  | cons x xs ih =>
    simp only [pySorted]
    rw [filter_pyInsert]
    by_cases hx : x.1 = s <;> simp [List.filter_cons, hx, ih]

theorem foldl_writeSD_sorted (sd : StateDict V)
    (ps : List (String × String × V)) :
    List.foldl writeSD sd (pySorted ps) = List.foldl writeSD sd ps := by
  funext s
  rw [foldl_writeSD_apply, foldl_writeSD_apply, filter_pySorted]

theorem pyInsert_ne_nil (x : String × String × V)
    (l : List (String × String × V)) : pyInsert x l ≠ [] := by
  cases l with
  | nil => simp [pyInsert]
  | cons y ys =>
    simp only [pyInsert]
    split <;> simp

/-! ### Claim theorems: batched style setting -/

/-- C9 counterexample: with an empty parameter list and an absent class,
`set_for_class` still creates an empty entry for the class (its initial
`setdefault(class_name, {})`), while the empty sequence of `set` calls leaves
the table untouched, so the resulting tables differ. -/
theorem C9_counterexample :
    ¬ (Theme.set_for_class (V := Nat) (fun _ => none) "X" [] =
        List.foldl (fun acc p => Theme.set acc "X" p.1 p.2.1 p.2.2)
          ((fun _ => none) : Styles Nat)
          ([] : List (String × String × Nat))) := by
  intro h
  have h2 := congrFun h "X"
  have hl : Theme.set_for_class (V := Nat) (fun _ => none) "X" [] "X" =
      some emptyDict := rfl
  have hr : List.foldl (fun acc p => Theme.set acc "X" p.1 p.2.1 p.2.2)
      ((fun _ => none) : Styles Nat) ([] : List (String × String × Nat)) "X" =
      none := rfl
  rw [hl, hr] at h2
  exact Option.noConfusion h2

/-- C9 amended: for every nonempty parameter list, `set_for_class` leaves the
style table in exactly the state produced by calling `set` once per tuple in
the original input order: the internal stable sort by state only permutes
writes that target disjoint state cells, and within one state preserves write
order.  (For an empty list the two differ: `set_for_class` still creates an
empty class entry.) -/
theorem C9_set_for_class_eq_foldl (t : Styles V) (c : String)
    (ps : List (String × String × V)) (h : ps ≠ []) :
    Theme.set_for_class t c ps =
      ps.foldl (fun acc p => Theme.set acc c p.1 p.2.1 p.2.2) t := by
  obtain ⟨q, rest, rfl⟩ : ∃ q rest, ps = q :: rest := by
    cases ps with
    | nil => exact absurd rfl h
    | cons q rest => exact ⟨q, rest, rfl⟩
  have hrhs : List.foldl (writeCell c) t (q :: rest) =
      dset t c (List.foldl writeSD ((t c).getD emptyDict) (q :: rest)) := by
    rw [List.foldl_cons,
      show writeCell c t q = dset t c (writeSD ((t c).getD emptyDict) q)
        from rfl,
      foldl_writeCell_dset, List.foldl_cons]
  have hsfc : Theme.set_for_class t c (q :: rest) =
      List.foldl (writeCell c) (setdefault t c emptyDict)
        (pySorted (q :: rest)) := rfl
  obtain ⟨q2, rest2, hsort⟩ :
      ∃ a l2, pySorted (q :: rest) = a :: l2 := by
    cases hs : pySorted (q :: rest) with
    | nil => exact absurd hs (pyInsert_ne_nil q (pySorted rest))
    | cons a l2 => exact ⟨a, l2, rfl⟩
  have hlhs : Theme.set_for_class t c (q :: rest) =
      dset t c (List.foldl writeSD ((t c).getD emptyDict) (q :: rest)) := by
    rw [hsfc, hsort, List.foldl_cons, writeCell_setdefault_first,
      foldl_writeCell_dset]
    have h2 : List.foldl writeSD (writeSD ((t c).getD emptyDict) q2) rest2 =
        List.foldl writeSD ((t c).getD emptyDict) (pySorted (q :: rest)) := by
      rw [hsort, List.foldl_cons]
    rw [h2, foldl_writeSD_sorted]
  rw [hlhs,
    show (q :: rest).foldl (fun acc p => Theme.set acc c p.1 p.2.1 p.2.2) t =
      List.foldl (writeCell c) t (q :: rest) from rfl,
    hrhs]

theorem C9_witness :
    ([(("focused" : String), ("background_color" : String), (5 : Nat)),
        ("normal", "border_widths", 1)] ≠
      ([] : List (String × String × Nat))) ∧
    Theme.set_for_class (V := Nat) (fun _ => none) "Button"
        [("focused", "background_color", 5), ("normal", "border_widths", 1)] =
      List.foldl (fun acc p => Theme.set acc "Button" p.1 p.2.1 p.2.2)
        (fun _ => none)
        [("focused", "background_color", 5), ("normal", "border_widths", 1)] :=
  ⟨by simp,
    C9_set_for_class_eq_foldl (fun _ => none) "Button"
      [("focused", "background_color", 5), ("normal", "border_widths", 1)]
      (by simp)⟩

end Pygameui
